import Mathlib

/-!
Verification of the event-attendance engine of the eventplanner repository.

The embedding below follows `src/voterbot.py`, the variant that implements
the canonical attendance engine of the specification: the `events` and
`votes` tables become lists of records, the SQL point queries and updates
become list operations, and the Telegram handlers `on_vote` (self voting),
the `av` branch of `on_admin` (admin vote editing), `handle_capacity_update`
(capacity change) and `create_event` become pure functions from a database
state to a result together with the successor state.  The external platform
membership check `is_group_admin` is an injected boolean capability.
-/

namespace EventPlanner

/-- A row of the `events` table:
`events(id, chat_id, title, max_people, created_by, active)`. -/
structure Event where
  id : Nat
  chat_id : Int
  title : String
  max_people : Int
  created_by : Int
  active : Bool
  deriving DecidableEq, Repr

/-- A row of the `votes` table:
`votes(event_id, user_id, user_name, guests)`. -/
structure Vote where
  event_id : Nat
  user_id : Int
  user_name : String
  guests : Nat
  deriving DecidableEq, Repr

/-- The database state: the two tables reached through the query interface. -/
structure DB where
  events : List Event
  votes : List Vote
  deriving DecidableEq, Repr

/-- Outcome of an engine operation, one constructor per distinguished
user-visible result of the handlers in `voterbot.py`. -/
inductive VoteResult where
  | ok
  | eventNotFound
  | eventClosed
  | notParticipating
  | capacityExceeded
  | noChange
  | notAuthorized
  | invalidInput
  | capacityBelowCurrent
  deriving DecidableEq, Repr

/-- The payload of a vote action: the literal `out` of the callback data, or
a numeric guest count. -/
inductive VoteValue where
  | out
  | guests (g : Nat)
  deriving DecidableEq, Repr

/-- The `(event_id, user_id)` row predicate used by every point query on
`votes` (`where event_id=$1 and user_id=$2`). -/
def keyMatch (event_id : Nat) (uid : Int) (v : Vote) : Bool :=
  v.event_id == event_id && v.user_id == uid

/-- The key of a vote row; unique by the `(event_id, user_id)` constraint. -/
def voteKey (v : Vote) : Nat × Int :=
  (v.event_id, v.user_id)

/-- Point query `select * from events where id=$1`. -/
def fetchEvent (db : DB) (event_id : Nat) : Option Event :=
  db.events.find? (fun e => e.id == event_id)

/-- Point query `select guests from votes where event_id=$1 and user_id=$2`. -/
def fetchVote (db : DB) (event_id : Nat) (uid : Int) : Option Vote :=
  db.votes.find? (keyMatch event_id uid)

/-- `select coalesce(sum(1 + guests),0) from votes where event_id=$1`,
expressed over a raw list of vote rows. -/
def votesTotal (l : List Vote) (event_id : Nat) : Nat :=
  ((l.filter (fun v => v.event_id == event_id)).map (fun v => 1 + v.guests)).sum

/-- `currentTotal(eventId)`: the occupancy sum read by every capacity check. -/
def currentTotal (db : DB) (event_id : Nat) : Nat :=
  votesTotal db.votes event_id

/-- `old_size = 1 + existing["guests"] if existing else 0` in `on_vote`. -/
def oldSize (db : DB) (event_id : Nat) (uid : Int) : Int :=
  match fetchVote db event_id uid with
  | some v => 1 + (v.guests : Int)
  | none => 0

/-- Row transformer of `update votes set guests=$3 where event_id=$1 and
user_id=$2`: rewrite the guest count of the matching row. -/
def updGuests (event_id : Nat) (uid : Int) (g : Nat) (v : Vote) : Vote :=
  if keyMatch event_id uid v then { v with guests := g } else v

/-- `insert into votes ... on conflict (event_id, user_id) do update set
guests=$4`: update the existing row for the key, or append a fresh row. -/
def upsertVote (db : DB) (event_id : Nat) (uid : Int) (uname : String) (g : Nat) : DB :=
  if db.votes.any (keyMatch event_id uid) then
    { db with votes := db.votes.map (updGuests event_id uid g) }
  else
    { db with votes := db.votes ++ [{ event_id := event_id, user_id := uid,
                                      user_name := uname, guests := g }] }

/-- `update votes set guests=$3, updated_at=now() where event_id=$1 and
user_id=$2` — a plain update, matching zero rows when the key is absent. -/
def updateVoteGuests (db : DB) (event_id : Nat) (uid : Int) (g : Nat) : DB :=
  { db with votes := db.votes.map (updGuests event_id uid g) }

/-- `delete from votes where event_id=$1 and user_id=$2`. -/
def deleteVote (db : DB) (event_id : Nat) (uid : Int) : DB :=
  { db with votes := db.votes.filter (fun v => !(keyMatch event_id uid v)) }

/-- The `on_vote` handler of `voterbot.py` (self voting via `v:` callbacks):
event lookup, active check, then either the `out` branch (delete or
`NotParticipating`) or the numeric branch (capacity check, no-change guard,
upsert), in the source's order. -/
def on_vote (db : DB) (event_id : Nat) (uid : Int) (uname : String)
    (value : VoteValue) : VoteResult × DB :=
  match fetchEvent db event_id with
  | none => (.eventNotFound, db)
  | some ev =>
    if !ev.active then (.eventClosed, db)
    else
      let existing := fetchVote db event_id uid
      let current_total := currentTotal db event_id
      match value with
      | .out =>
        match existing with
        | some _ => (.ok, deleteVote db event_id uid)
        | none => (.notParticipating, db)
      | .guests g =>
        let new_size : Int := 1 + (g : Int)
        let old_size : Int :=
          match existing with
          | some v => 1 + (v.guests : Int)
          | none => 0
        if (current_total : Int) - old_size + new_size > ev.max_people then
          (.capacityExceeded, db)
        else
          match existing with
          | some v =>
            if v.guests == g then (.noChange, db)
            else (.ok, upsertVote db event_id uid uname g)
          | none => (.ok, upsertVote db event_id uid uname g)

/-- `is_event_admin` of `voterbot.py`: the creator is always an admin,
otherwise the injected platform capability (`is_group_admin`) decides. -/
def is_event_admin (cap : Int → Int → Bool) (ev : Event) (user_id : Int) : Bool :=
  if user_id == ev.created_by then true
  else cap ev.chat_id user_id

/-- The `av` branch of the `on_admin` handler (admin vote editing): event
lookup, admin authorization, then an unconditional delete (`out`) or an
unconditional guest-count update — no active check and no capacity check. -/
def adminSetVote (cap : Int → Int → Bool) (db : DB) (event_id : Nat)
    (admin_id : Int) (target_user_id : Int) (value : VoteValue) : VoteResult × DB :=
  match fetchEvent db event_id with
  | none => (.eventNotFound, db)
  | some ev =>
    if !(is_event_admin cap ev admin_id) then (.notAuthorized, db)
    else
      match value with
      | .out => (.ok, deleteVote db event_id target_user_id)
      | .guests g => (.ok, updateVoteGuests db event_id target_user_id g)

/-- The core of `handle_capacity_update`: reject a capacity below 1, reject a
capacity below the current occupancy, otherwise store it. -/
def setCapacity (db : DB) (event_id : Nat) (new_max : Int) : VoteResult × DB :=
  if new_max < 1 then (.invalidInput, db)
  else if new_max < (currentTotal db event_id : Int) then (.capacityBelowCurrent, db)
  else
    let f := fun (e : Event) => if e.id == event_id then { e with max_people := new_max } else e
    (.ok, { db with events := db.events.map f })

/-- The validation and insert of `create_event`: a title empty after
stripping or a capacity below 1 is invalid input, otherwise an event row is
inserted with `active = true`.  The fresh `id` handed out by the store is a
parameter. -/
def createEvent (db : DB) (new_id : Nat) (chat_id : Int) (title : String)
    (max_people : Int) (created_by : Int) : VoteResult × DB :=
  if title.trim = "" then (.invalidInput, db)
  else if max_people < 1 then (.invalidInput, db)
  else
    let e : Event :=
      { id := new_id, chat_id := chat_id, title := title.trim,
        max_people := max_people, created_by := created_by, active := true }
    (.ok, { db with events := db.events ++ [e] })

/-- `update events set active=false where id=$1` (the `close` admin action). -/
def closeEvent (db : DB) (event_id : Nat) : DB :=
  let f := fun (e : Event) => if e.id == event_id then { e with active := false } else e
  { db with events := db.events.map f }

/-- Uniqueness of `(event_id, user_id)`: the constraint the `votes` table
carries in the store. -/
def votesNodup (db : DB) : Prop :=
  (db.votes.map voteKey).Nodup

/-- The capacity invariant: every event's occupancy is within its capacity. -/
def capInvariant (db : DB) : Prop :=
  ∀ e ∈ db.events, (currentTotal db e.id : Int) ≤ e.max_people

/-- Referential integrity: every vote row points at an existing event. -/
def votesHaveEvent (db : DB) : Prop :=
  ∀ v ∈ db.votes, ∃ e ∈ db.events, e.id = v.event_id

/-- One step of the non-admin mutating interface: event creation (with a
store-fresh id), self voting, participant removal, capacity change. -/
inductive Step : DB → DB → Prop where
  | create (db : DB) (new_id : Nat) (chat_id : Int) (title : String)
      (max_people : Int) (created_by : Int)
      (fresh : ∀ e ∈ db.events, e.id ≠ new_id) :
      Step db (createEvent db new_id chat_id title max_people created_by).2
  | vote (db : DB) (event_id : Nat) (uid : Int) (uname : String) (value : VoteValue) :
      Step db (on_vote db event_id uid uname value).2
  | remove (cap : Int → Int → Bool) (db : DB) (event_id : Nat)
      (admin_id target_user_id : Int) :
      Step db (adminSetVote cap db event_id admin_id target_user_id .out).2
  | setCap (db : DB) (event_id : Nat) (new_max : Int) :
      Step db (setCapacity db event_id new_max).2

/-- States reachable from the empty store through the non-admin mutating
operations. -/
def Reachable (db : DB) : Prop :=
  Relation.ReflTransGen Step { events := [], votes := [] } db

/-! ### Basic facts about keys and row transformers -/

theorem keyMatch_iff (event_id : Nat) (uid : Int) (v : Vote) :
    keyMatch event_id uid v = true ↔ v.event_id = event_id ∧ v.user_id = uid := by
  simp [keyMatch]

theorem keyMatch_eq_voteKey (event_id : Nat) (uid : Int) (v : Vote) :
    keyMatch event_id uid v = true ↔ voteKey v = (event_id, uid) := by
  simp [keyMatch, voteKey, Prod.ext_iff]

theorem voteKey_updGuests (event_id : Nat) (uid : Int) (g : Nat) (v : Vote) :
    voteKey (updGuests event_id uid g v) = voteKey v := by
  unfold updGuests voteKey
  split <;> rfl

theorem keyMatch_updGuests (eid2 : Nat) (uid2 : Int) (event_id : Nat) (uid : Int)
    (g : Nat) (v : Vote) :
    keyMatch eid2 uid2 (updGuests event_id uid g v) = keyMatch eid2 uid2 v := by
  unfold updGuests keyMatch
  split <;> rfl

theorem event_id_updGuests (event_id : Nat) (uid : Int) (g : Nat) (v : Vote) :
    (updGuests event_id uid g v).event_id = v.event_id := by
  unfold updGuests
  split <;> rfl

theorem updGuests_of_match (event_id : Nat) (uid : Int) (g : Nat) (v : Vote)
    (h : keyMatch event_id uid v = true) :
    updGuests event_id uid g v = { v with guests := g } := by
  simp [updGuests, h]

theorem updGuests_of_no_match (event_id : Nat) (uid : Int) (g : Nat) (v : Vote)
    (h : keyMatch event_id uid v = false) :
    updGuests event_id uid g v = v := by
  simp [updGuests, h]

/-! ### Totals -/

theorem votesTotal_nil (event_id : Nat) : votesTotal [] event_id = 0 := rfl

theorem votesTotal_cons (v : Vote) (l : List Vote) (event_id : Nat) :
    votesTotal (v :: l) event_id
      = (if v.event_id = event_id then 1 + v.guests else 0) + votesTotal l event_id := by
  unfold votesTotal
  rcases Decidable.em (v.event_id = event_id) with h | h
  · simp [List.filter_cons, h]
  · simp [List.filter_cons, h]

theorem votesTotal_append (l1 l2 : List Vote) (event_id : Nat) :
    votesTotal (l1 ++ l2) event_id = votesTotal l1 event_id + votesTotal l2 event_id := by
  unfold votesTotal
  simp [List.filter_append]

theorem votesTotal_filter_le (p : Vote → Bool) (l : List Vote) (event_id : Nat) :
    votesTotal (l.filter p) event_id ≤ votesTotal l event_id := by
  induction l with
  | nil => simp [votesTotal_nil]
  | cons v tl ih =>
    rw [List.filter_cons]
    rcases Decidable.em (p v = true) with h | h
    · rw [if_pos h, votesTotal_cons, votesTotal_cons]
      omega
    · rw [if_neg h, votesTotal_cons]
      omega

theorem votesTotal_eq_zero_of_not_mem (l : List Vote) (event_id : Nat)
    (h : ∀ v ∈ l, v.event_id ≠ event_id) : votesTotal l event_id = 0 := by
  induction l with
  | nil => rfl
  | cons v tl ih =>
    rw [votesTotal_cons, if_neg (h v (by simp)), ih (fun u hu => h u (by simp [hu]))]

/-! ### Maps and filters that touch no row with the given key -/

theorem map_updGuests_id (event_id : Nat) (uid : Int) (g : Nat) (l : List Vote)
    (h : ∀ v ∈ l, keyMatch event_id uid v = false) :
    l.map (updGuests event_id uid g) = l := by
  induction l with
  | nil => rfl
  | cons v tl ih =>
    simp only [List.map_cons]
    rw [updGuests_of_no_match _ _ _ _ (h v (by simp)),
      ih (fun u hu => h u (by simp [hu]))]

theorem filter_not_keyMatch_id (event_id : Nat) (uid : Int) (l : List Vote)
    (h : ∀ v ∈ l, keyMatch event_id uid v = false) :
    l.filter (fun v => !(keyMatch event_id uid v)) = l := by
  rw [List.filter_eq_self]
  intro v hv
  simp [h v hv]

theorem no_tail_match (event_id : Nat) (uid : Int) (v : Vote) (tl : List Vote)
    (hnd : ((v :: tl).map voteKey).Nodup) (hv : keyMatch event_id uid v = true) :
    ∀ u ∈ tl, keyMatch event_id uid u = false := by
  intro u hu
  rw [List.map_cons, List.nodup_cons] at hnd
  by_contra hcon
  rw [Bool.not_eq_false] at hcon
  have h1 : voteKey u = (event_id, uid) := (keyMatch_eq_voteKey _ _ _).mp hcon
  have h2 : voteKey v = (event_id, uid) := (keyMatch_eq_voteKey _ _ _).mp hv
  exact hnd.1 (h2 ▸ h1 ▸ List.mem_map_of_mem voteKey hu)

/-! ### Exact accounting of the update, insert and delete row operations -/

theorem votesTotal_map_updGuests (event_id : Nat) (uid : Int) (g : Nat)
    (l : List Vote) (w : Vote)
    (hnd : (l.map voteKey).Nodup)
    (hfind : l.find? (keyMatch event_id uid) = some w) :
    votesTotal (l.map (updGuests event_id uid g)) event_id + (1 + w.guests)
      = votesTotal l event_id + (1 + g) := by
  induction l with
  | nil => simp at hfind
  | cons v tl ih =>
    rcases Decidable.em (keyMatch event_id uid v = true) with hv | hv
    · rw [List.find?_cons_of_pos _ hv] at hfind
      injection hfind with hw
      subst hw
      have hnot := no_tail_match event_id uid v tl hnd hv
      simp only [List.map_cons]
      rw [map_updGuests_id _ _ _ _ hnot, updGuests_of_match _ _ _ _ hv,
        votesTotal_cons, votesTotal_cons]
      have hev : v.event_id = event_id := ((keyMatch_iff _ _ _).mp hv).1
      rw [if_pos hev, if_pos hev]
      have hgg : ({ v with guests := g } : Vote).guests = g := rfl
      rw [hgg]
      omega
    · rw [List.find?_cons_of_neg _ hv] at hfind
      rw [List.map_cons, List.nodup_cons] at hnd
      simp only [List.map_cons]
      rw [updGuests_of_no_match _ _ _ _ (by simpa using hv),
        votesTotal_cons, votesTotal_cons]
      have := ih hnd.2 hfind
      omega

theorem votesTotal_map_updGuests_ne (event_id : Nat) (uid : Int) (g : Nat)
    (eid2 : Nat) (l : List Vote) (h : eid2 ≠ event_id) :
    votesTotal (l.map (updGuests event_id uid g)) eid2 = votesTotal l eid2 := by
  induction l with
  | nil => rfl
  | cons v tl ih =>
    simp only [List.map_cons]
    rw [votesTotal_cons, votesTotal_cons, ih]
    rcases Decidable.em (v.event_id = eid2) with he | he
    · have hk : keyMatch event_id uid v = false := by
        rw [Bool.eq_false_iff]
        intro hcon
        have h1 : v.event_id = event_id := ((keyMatch_iff _ _ _).mp hcon).1
        rw [he] at h1
        exact h h1
      rw [updGuests_of_no_match _ _ _ _ hk]
    · rw [if_neg he, if_neg (by rw [event_id_updGuests]; exact he)]

theorem votesTotal_erase (event_id : Nat) (uid : Int) (l : List Vote) (w : Vote)
    (hnd : (l.map voteKey).Nodup)
    (hfind : l.find? (keyMatch event_id uid) = some w) :
    votesTotal (l.filter (fun v => !(keyMatch event_id uid v))) event_id + (1 + w.guests)
      = votesTotal l event_id := by
  induction l with
  | nil => simp at hfind
  | cons v tl ih =>
    rcases Decidable.em (keyMatch event_id uid v = true) with hv | hv
    · rw [List.find?_cons_of_pos _ hv] at hfind
      injection hfind with hw
      subst hw
      have hnot := no_tail_match event_id uid v tl hnd hv
      rw [List.filter_cons_of_neg (by simp [hv]),
        filter_not_keyMatch_id _ _ _ hnot, votesTotal_cons]
      have hev : v.event_id = event_id := ((keyMatch_iff _ _ _).mp hv).1
      rw [if_pos hev]
      omega
    · rw [List.find?_cons_of_neg _ hv] at hfind
      rw [List.map_cons, List.nodup_cons] at hnd
      rw [List.filter_cons_of_pos (by simpa using hv), votesTotal_cons, votesTotal_cons]
      have := ih hnd.2 hfind
      omega

theorem find?_filter_not (p : Vote → Bool) (l : List Vote) :
    (l.filter (fun v => !(p v))).find? p = none := by
  rw [List.find?_eq_none]
  intro x hx
  rw [List.mem_filter] at hx
  rcases hx with ⟨_, hx2⟩
  simp only [Bool.not_eq_true'] at hx2
  simp [hx2]

theorem filter_keyMatch_length (event_id : Nat) (uid : Int) (l : List Vote) (w : Vote)
    (hnd : (l.map voteKey).Nodup)
    (hfind : l.find? (keyMatch event_id uid) = some w) :
    (l.filter (keyMatch event_id uid)).length = 1 := by
  induction l with
  | nil => simp at hfind
  | cons v tl ih =>
    rcases Decidable.em (keyMatch event_id uid v = true) with hv | hv
    · have hnot := no_tail_match event_id uid v tl hnd hv
      rw [List.filter_cons_of_pos hv, List.filter_eq_nil_iff.mpr
        (fun u hu => by simp [hnot u hu])]
      rfl
    · rw [List.find?_cons_of_neg _ hv] at hfind
      rw [List.map_cons, List.nodup_cons] at hnd
      rw [List.filter_cons_of_neg (by simpa using hv)]
      exact ih hnd.2 hfind

/-! ### Preservation of key uniqueness -/

theorem nodup_map_updGuests (event_id : Nat) (uid : Int) (g : Nat) (l : List Vote)
    (hnd : (l.map voteKey).Nodup) :
    ((l.map (updGuests event_id uid g)).map voteKey).Nodup := by
  rw [List.map_map]
  have h : voteKey ∘ updGuests event_id uid g = voteKey :=
    funext (voteKey_updGuests event_id uid g)
  rw [h]
  exact hnd

theorem nodup_filter_votes (p : Vote → Bool) (l : List Vote)
    (hnd : (l.map voteKey).Nodup) :
    ((l.filter p).map voteKey).Nodup :=
  hnd.sublist ((l.filter_sublist).map voteKey)

theorem nodup_append_vote (l : List Vote) (x : Vote)
    (hnd : (l.map voteKey).Nodup)
    (hx : ∀ v ∈ l, voteKey v ≠ voteKey x) :
    ((l ++ [x]).map voteKey).Nodup := by
  rw [List.map_append, List.nodup_append]
  refine ⟨hnd, List.nodup_singleton _, ?_⟩
  intro a ha hb
  rw [List.mem_map] at ha
  obtain ⟨v, hv, rfl⟩ := ha
  simp only [List.map_cons, List.map_nil, List.mem_singleton] at hb
  exact hx v hv hb

/-! ### Database-level facts -/

theorem events_upsertVote (db : DB) (event_id : Nat) (uid : Int) (uname : String) (g : Nat) :
    (upsertVote db event_id uid uname g).events = db.events := by
  unfold upsertVote
  split <;> rfl

theorem events_deleteVote (db : DB) (event_id : Nat) (uid : Int) :
    (deleteVote db event_id uid).events = db.events := rfl

theorem events_updateVoteGuests (db : DB) (event_id : Nat) (uid : Int) (g : Nat) :
    (updateVoteGuests db event_id uid g).events = db.events := rfl

theorem votes_closeEvent (db : DB) (event_id : Nat) :
    (closeEvent db event_id).votes = db.votes := rfl

theorem any_eq_isSome_fetchVote (db : DB) (event_id : Nat) (uid : Int) :
    db.votes.any (keyMatch event_id uid) = (fetchVote db event_id uid).isSome := by
  rcases h : fetchVote db event_id uid with _ | w
  · simp only [Option.isSome_none]
    rw [Bool.eq_false_iff]
    rw [Ne, List.any_eq_true]
    unfold fetchVote at h
    rw [List.find?_eq_none] at h
    rintro ⟨x, hx, hpx⟩
    exact h x hx hpx
  · simp only [Option.isSome_some]
    rw [List.any_eq_true]
    unfold fetchVote at h
    exact ⟨w, List.mem_of_find?_eq_some h, List.find?_some h⟩

theorem votes_upsert_of_some (db : DB) (event_id : Nat) (uid : Int) (uname : String)
    (g : Nat) (w : Vote) (h : fetchVote db event_id uid = some w) :
    (upsertVote db event_id uid uname g).votes = db.votes.map (updGuests event_id uid g) := by
  unfold upsertVote
  rw [if_pos (by rw [any_eq_isSome_fetchVote, h]; rfl)]

theorem votes_upsert_of_none (db : DB) (event_id : Nat) (uid : Int) (uname : String)
    (g : Nat) (h : fetchVote db event_id uid = none) :
    (upsertVote db event_id uid uname g).votes
      = db.votes ++ [{ event_id := event_id, user_id := uid, user_name := uname, guests := g }] := by
  unfold upsertVote
  rw [if_neg (by rw [any_eq_isSome_fetchVote, h]; simp)]

theorem fetchVote_upsert_of_some (db : DB) (event_id : Nat) (uid : Int) (uname : String)
    (g : Nat) (w : Vote) (h : fetchVote db event_id uid = some w) :
    fetchVote (upsertVote db event_id uid uname g) event_id uid = some { w with guests := g } := by
  unfold fetchVote
  rw [votes_upsert_of_some db event_id uid uname g w h, List.find?_map]
  have hcomp : keyMatch event_id uid ∘ updGuests event_id uid g = keyMatch event_id uid :=
    funext (keyMatch_updGuests event_id uid event_id uid g)
  rw [hcomp]
  unfold fetchVote at h
  rw [h]
  simp [updGuests_of_match _ _ _ _ (List.find?_some h)]

theorem fetchVote_upsert_of_none (db : DB) (event_id : Nat) (uid : Int) (uname : String)
    (g : Nat) (h : fetchVote db event_id uid = none) :
    fetchVote (upsertVote db event_id uid uname g) event_id uid
      = some { event_id := event_id, user_id := uid, user_name := uname, guests := g } := by
  unfold fetchVote
  rw [votes_upsert_of_none db event_id uid uname g h, List.find?_append]
  unfold fetchVote at h
  rw [h]
  simp [keyMatch]

theorem fetchVote_deleteVote (db : DB) (event_id : Nat) (uid : Int) :
    fetchVote (deleteVote db event_id uid) event_id uid = none := by
  unfold fetchVote deleteVote
  exact find?_filter_not (keyMatch event_id uid) db.votes

theorem fetchEvent_map (f : Event → Event) (hid : ∀ e, (f e).id = e.id)
    (l : List Event) (eid : Nat) :
    (l.map f).find? (fun e => e.id == eid) = (l.find? (fun e => e.id == eid)).map f := by
  rw [List.find?_map]
  have hcomp : ((fun (e : Event) => e.id == eid) ∘ f) = (fun e => e.id == eid) := by
    funext e
    simp [Function.comp, hid]
  rw [hcomp]

theorem oldSize_of_some (db : DB) (event_id : Nat) (uid : Int) (w : Vote)
    (hw : fetchVote db event_id uid = some w) :
    oldSize db event_id uid = 1 + (w.guests : Int) := by
  unfold oldSize
  rw [hw]

theorem oldSize_of_none (db : DB) (event_id : Nat) (uid : Int)
    (hw : fetchVote db event_id uid = none) :
    oldSize db event_id uid = 0 := by
  unfold oldSize
  rw [hw]

/-! ### Path characterizations of the `on_vote` handler -/

theorem on_vote_not_found (db : DB) (event_id : Nat) (uid : Int) (un : String)
    (value : VoteValue) (h : fetchEvent db event_id = none) :
    on_vote db event_id uid un value = (.eventNotFound, db) := by
  unfold on_vote
  rw [h]

theorem on_vote_closed (db : DB) (event_id : Nat) (uid : Int) (un : String)
    (value : VoteValue) (ev : Event) (h : fetchEvent db event_id = some ev)
    (ha : ev.active = false) :
    on_vote db event_id uid un value = (.eventClosed, db) := by
  unfold on_vote
  rw [h]
  simp [ha]

theorem on_vote_out_some (db : DB) (event_id : Nat) (uid : Int) (un : String)
    (ev : Event) (w : Vote) (h : fetchEvent db event_id = some ev)
    (ha : ev.active = true) (hw : fetchVote db event_id uid = some w) :
    on_vote db event_id uid un .out = (.ok, deleteVote db event_id uid) := by
  unfold on_vote
  rw [h]
  simp [ha, hw]

theorem on_vote_out_none (db : DB) (event_id : Nat) (uid : Int) (un : String)
    (ev : Event) (h : fetchEvent db event_id = some ev)
    (ha : ev.active = true) (hw : fetchVote db event_id uid = none) :
    on_vote db event_id uid un .out = (.notParticipating, db) := by
  unfold on_vote
  rw [h]
  simp [ha, hw]

theorem on_vote_capacity (db : DB) (event_id : Nat) (uid : Int) (un : String)
    (g : Nat) (ev : Event) (h : fetchEvent db event_id = some ev)
    (ha : ev.active = true)
    (hcap : (currentTotal db event_id : Int) - oldSize db event_id uid + (1 + (g : Int))
      > ev.max_people) :
    on_vote db event_id uid un (.guests g) = (.capacityExceeded, db) := by
  unfold on_vote
  rw [h]
  rcases hw : fetchVote db event_id uid with _ | w
  · rw [oldSize_of_none db event_id uid hw] at hcap
    simp [ha, hw, hcap] <;> omega
  · rw [oldSize_of_some db event_id uid w hw] at hcap
    simp [ha, hw, hcap] <;> omega

theorem on_vote_noChange (db : DB) (event_id : Nat) (uid : Int) (un : String)
    (g : Nat) (ev : Event) (w : Vote) (h : fetchEvent db event_id = some ev)
    (ha : ev.active = true)
    (hcap : ¬ ((currentTotal db event_id : Int) - oldSize db event_id uid + (1 + (g : Int))
      > ev.max_people))
    (hw : fetchVote db event_id uid = some w) (hg : w.guests = g) :
    on_vote db event_id uid un (.guests g) = (.noChange, db) := by
  unfold on_vote
  rw [h]
  rw [oldSize_of_some db event_id uid w hw] at hcap
  simp [ha, hw, hcap, hg] <;> omega

theorem on_vote_write_some (db : DB) (event_id : Nat) (uid : Int) (un : String)
    (g : Nat) (ev : Event) (w : Vote) (h : fetchEvent db event_id = some ev)
    (ha : ev.active = true)
    (hcap : ¬ ((currentTotal db event_id : Int) - oldSize db event_id uid + (1 + (g : Int))
      > ev.max_people))
    (hw : fetchVote db event_id uid = some w) (hg : w.guests ≠ g) :
    on_vote db event_id uid un (.guests g) = (.ok, upsertVote db event_id uid un g) := by
  unfold on_vote
  rw [h]
  rw [oldSize_of_some db event_id uid w hw] at hcap
  simp [ha, hw, hcap, hg] <;> omega

theorem on_vote_write_none (db : DB) (event_id : Nat) (uid : Int) (un : String)
    (g : Nat) (ev : Event) (h : fetchEvent db event_id = some ev)
    (ha : ev.active = true)
    (hcap : ¬ ((currentTotal db event_id : Int) - oldSize db event_id uid + (1 + (g : Int))
      > ev.max_people))
    (hw : fetchVote db event_id uid = none) :
    on_vote db event_id uid un (.guests g) = (.ok, upsertVote db event_id uid un g) := by
  unfold on_vote
  rw [h]
  rw [oldSize_of_none db event_id uid hw] at hcap
  simp [ha, hw, hcap] <;> omega

/-! ### Well-formedness of reachable states -/

theorem fetchEvent_mem (db : DB) (event_id : Nat) (ev : Event)
    (h : fetchEvent db event_id = some ev) : ev ∈ db.events ∧ ev.id = event_id := by
  unfold fetchEvent at h
  exact ⟨List.mem_of_find?_eq_some h, by simpa using List.find?_some h⟩

/-- Uniqueness of event ids, as handed out by the serial primary key. -/
def eventsNodup (db : DB) : Prop :=
  (db.events.map Event.id).Nodup

/-- The structural well-formedness the store guarantees, together with the
capacity invariant. -/
def wf (db : DB) : Prop :=
  capInvariant db ∧ votesNodup db ∧ votesHaveEvent db ∧ eventsNodup db

theorem votesTotal_singleton (x : Vote) (eid : Nat) :
    votesTotal [x] eid = if x.event_id = eid then 1 + x.guests else 0 := by
  rw [votesTotal_cons, votesTotal_nil, Nat.add_zero]

theorem wf_deleteVote (db : DB) (event_id : Nat) (uid : Int) (hwf : wf db) :
    wf (deleteVote db event_id uid) := by
  obtain ⟨hinv, hnd, hve, hen⟩ := hwf
  refine ⟨?_, ?_, ?_, hen⟩
  · intro e he
    have h1 := hinv e he
    have h2 : votesTotal (db.votes.filter (fun v => !(keyMatch event_id uid v))) e.id
        ≤ votesTotal db.votes e.id := votesTotal_filter_le _ _ _
    unfold currentTotal at h1 ⊢
    have h3 : (deleteVote db event_id uid).votes
        = db.votes.filter (fun v => !(keyMatch event_id uid v)) := rfl
    rw [h3]
    omega
  · exact nodup_filter_votes _ db.votes hnd
  · intro v hv
    exact hve v (List.mem_of_mem_filter hv)

theorem wf_upsert (db : DB) (event_id : Nat) (uid : Int) (un : String) (g : Nat) (ev : Event)
    (hwf : wf db)
    (hev : fetchEvent db event_id = some ev)
    (hcap : ¬ ((currentTotal db event_id : Int) - oldSize db event_id uid + (1 + (g : Int))
      > ev.max_people)) :
    wf (upsertVote db event_id uid un g) := by
  obtain ⟨hinv, hnd, hve, hen⟩ := hwf
  obtain ⟨hevmem, hevid⟩ := fetchEvent_mem db event_id ev hev
  rcases hw : fetchVote db event_id uid with _ | w
  · -- insert branch: the key is absent, a fresh row is appended
    have hv : (upsertVote db event_id uid un g).votes
        = db.votes ++ [{ event_id := event_id, user_id := uid, user_name := un, guests := g }] :=
      votes_upsert_of_none db event_id uid un g hw
    rw [oldSize_of_none db event_id uid hw] at hcap
    have hproj : (Vote.mk event_id uid un g).event_id = event_id := rfl
    have hgproj : (Vote.mk event_id uid un g).guests = g := rfl
    refine ⟨?_, ?_, ?_, ?_⟩
    · intro e he
      rw [events_upsertVote] at he
      have h1 := hinv e he
      unfold currentTotal at h1 ⊢
      rw [hv, votesTotal_append, votesTotal_singleton, hproj, hgproj]
      rcases Decidable.em (e.id = event_id) with heq | hne
      · have heqv : e = ev := List.inj_on_of_nodup_map hen he hevmem (by rw [heq, hevid])
        have hmax : e.max_people = ev.max_people := by rw [heqv]
        rw [if_pos heq.symm, heq, hmax]
        unfold currentTotal at hcap
        omega
      · rw [if_neg (fun hc => hne hc.symm)]
        omega
    · unfold votesNodup
      rw [hv]
      refine nodup_append_vote db.votes _ hnd ?_
      intro v hvm hkey
      unfold fetchVote at hw
      rw [List.find?_eq_none] at hw
      apply hw v hvm
      rw [keyMatch_eq_voteKey]
      exact hkey
    · intro v hvm
      rw [events_upsertVote]
      rw [hv] at hvm
      rcases List.mem_append.mp hvm with h1 | h1
      · exact hve v h1
      · rw [List.mem_singleton] at h1
        subst h1
        exact ⟨ev, hevmem, hevid⟩
    · unfold eventsNodup
      rw [events_upsertVote]
      exact hen
  · -- update branch: the existing row for the key is rewritten in place
    have hv : (upsertVote db event_id uid un g).votes
        = db.votes.map (updGuests event_id uid g) :=
      votes_upsert_of_some db event_id uid un g w hw
    rw [oldSize_of_some db event_id uid w hw] at hcap
    have hfind : db.votes.find? (keyMatch event_id uid) = some w := hw
    refine ⟨?_, ?_, ?_, ?_⟩
    · intro e he
      rw [events_upsertVote] at he
      have h1 := hinv e he
      unfold currentTotal at h1 ⊢
      rw [hv]
      rcases Decidable.em (e.id = event_id) with heq | hne
      · have heqv : e = ev := List.inj_on_of_nodup_map hen he hevmem (by rw [heq, hevid])
        have hmax : e.max_people = ev.max_people := by rw [heqv]
        have h2 := votesTotal_map_updGuests event_id uid g db.votes w hnd hfind
        rw [heq, hmax]
        unfold currentTotal at hcap
        omega
      · rw [votesTotal_map_updGuests_ne event_id uid g e.id db.votes hne]
        omega
    · unfold votesNodup
      rw [hv]
      exact nodup_map_updGuests event_id uid g db.votes hnd
    · intro v hvm
      rw [events_upsertVote]
      rw [hv] at hvm
      rw [List.mem_map] at hvm
      obtain ⟨u, hu, rfl⟩ := hvm
      have h1 := hve u hu
      rw [event_id_updGuests]
      exact h1
    · unfold eventsNodup
      rw [events_upsertVote]
      exact hen

theorem wf_on_vote (db : DB) (event_id : Nat) (uid : Int) (un : String)
    (value : VoteValue) (hwf : wf db) :
    wf (on_vote db event_id uid un value).2 := by
  rcases hev : fetchEvent db event_id with _ | ev
  · rw [on_vote_not_found db event_id uid un value hev]
    exact hwf
  · rcases hact : ev.active with _ | _
    · rw [on_vote_closed db event_id uid un value ev hev hact]
      exact hwf
    · cases value with
      | out =>
        rcases hw : fetchVote db event_id uid with _ | w
        · rw [on_vote_out_none db event_id uid un ev hev hact hw]
          exact hwf
        · rw [on_vote_out_some db event_id uid un ev w hev hact hw]
          exact wf_deleteVote db event_id uid hwf
      | guests g =>
        by_cases hcap : (currentTotal db event_id : Int) - oldSize db event_id uid
            + (1 + (g : Int)) > ev.max_people
        · rw [on_vote_capacity db event_id uid un g ev hev hact hcap]
          exact hwf
        · rcases hw : fetchVote db event_id uid with _ | w
          · rw [on_vote_write_none db event_id uid un g ev hev hact hcap hw]
            exact wf_upsert db event_id uid un g ev hwf hev hcap
          · by_cases hg : w.guests = g
            · rw [on_vote_noChange db event_id uid un g ev w hev hact hcap hw hg]
              exact hwf
            · rw [on_vote_write_some db event_id uid un g ev w hev hact hcap hw hg]
              exact wf_upsert db event_id uid un g ev hwf hev hcap

theorem wf_createEvent (db : DB) (new_id : Nat) (chat_id : Int) (title : String)
    (max_people : Int) (created_by : Int) (hwf : wf db)
    (fresh : ∀ e ∈ db.events, e.id ≠ new_id) :
    wf (createEvent db new_id chat_id title max_people created_by).2 := by
  obtain ⟨hinv, hnd, hve, hen⟩ := hwf
  unfold createEvent
  by_cases ht : title.trim = ""
  · rw [if_pos ht]
    exact ⟨hinv, hnd, hve, hen⟩
  · rw [if_neg ht]
    by_cases hm : max_people < 1
    · rw [if_pos hm]
      exact ⟨hinv, hnd, hve, hen⟩
    · rw [if_neg hm]
      show wf { db with events := db.events ++ [Event.mk new_id chat_id title.trim
        max_people created_by true] }
      refine ⟨?_, hnd, ?_, ?_⟩
      · intro e' he'
        rcases List.mem_append.mp he' with h1 | h1
        · have := hinv e' h1
          exact this
        · rw [List.mem_singleton] at h1
          subst h1
          show ((votesTotal db.votes new_id : Int)) ≤ max_people
          rw [votesTotal_eq_zero_of_not_mem db.votes new_id ?_]
          · omega
          · intro v hv hvid
            obtain ⟨e, he, hid⟩ := hve v hv
            exact fresh e he (hid.trans hvid)
      · intro v hv
        obtain ⟨e, he, hid⟩ := hve v hv
        exact ⟨e, List.mem_append_left _ he, hid⟩
      · unfold eventsNodup
        show ((db.events ++ [Event.mk new_id chat_id title.trim max_people
          created_by true]).map Event.id).Nodup
        rw [List.map_append, List.nodup_append]
        refine ⟨hen, List.nodup_singleton _, ?_⟩
        intro a ha hb
        rw [List.mem_map] at ha
        obtain ⟨e, he, rfl⟩ := ha
        simp only [List.map_cons, List.map_nil, List.mem_singleton] at hb
        exact fresh e he hb

theorem wf_setCapacity (db : DB) (event_id : Nat) (new_max : Int) (hwf : wf db) :
    wf (setCapacity db event_id new_max).2 := by
  obtain ⟨hinv, hnd, hve, hen⟩ := hwf
  unfold setCapacity
  by_cases h1 : new_max < 1
  · rw [if_pos h1]
    exact ⟨hinv, hnd, hve, hen⟩
  · rw [if_neg h1]
    by_cases h2 : new_max < (currentTotal db event_id : Int)
    · rw [if_pos h2]
      exact ⟨hinv, hnd, hve, hen⟩
    · rw [if_neg h2]
      show wf { db with events := db.events.map (fun e =>
        if e.id == event_id then { e with max_people := new_max } else e) }
      have hid : ∀ e : Event, ((if e.id == event_id then { e with max_people := new_max }
          else e) : Event).id = e.id := by
        intro e
        split <;> rfl
      refine ⟨?_, hnd, ?_, ?_⟩
      · intro e' he'
        rw [List.mem_map] at he'
        obtain ⟨e, he, rfl⟩ := he'
        show ((votesTotal db.votes (if e.id == event_id then { e with max_people := new_max }
          else e).id : Int)) ≤ _
        rw [hid e]
        by_cases heq : e.id = event_id
        · rw [if_pos (beq_iff_eq.mpr heq), heq]
          show ((votesTotal db.votes event_id : Int)) ≤ new_max
          unfold currentTotal at h2
          omega
        · rw [if_neg (by simpa using heq)]
          exact hinv e he
      · intro v hv
        obtain ⟨e, he, hid2⟩ := hve v hv
        refine ⟨_, List.mem_map_of_mem _ he, ?_⟩
        rw [hid e]
        exact hid2
      · unfold eventsNodup
        show ((db.events.map (fun e => if e.id == event_id then { e with max_people := new_max }
          else e)).map Event.id).Nodup
        rw [List.map_map]
        have hcomp : (Event.id ∘ (fun e => if e.id == event_id then
            { e with max_people := new_max } else e)) = Event.id := funext hid
        rw [hcomp]
        exact hen

theorem wf_adminRemove (cap : Int → Int → Bool) (db : DB) (event_id : Nat)
    (admin_id target_user_id : Int) (hwf : wf db) :
    wf (adminSetVote cap db event_id admin_id target_user_id .out).2 := by
  unfold adminSetVote
  rcases hev : fetchEvent db event_id with _ | ev
  · exact hwf
  · rcases hadm : is_event_admin cap ev admin_id with _ | _
    · simp only [hadm, Bool.not_false, if_true]
      exact hwf
    · simp [hadm]
      exact wf_deleteVote db event_id target_user_id hwf

theorem wf_step {db db' : DB} (h : Step db db') (hwf : wf db) : wf db' := by
  cases h
  case create new_id chat_id title max_people created_by fresh =>
    exact wf_createEvent db new_id chat_id title max_people created_by hwf fresh
  case vote event_id uid uname value =>
    exact wf_on_vote db event_id uid uname value hwf
  case remove cap event_id admin_id target_user_id =>
    exact wf_adminRemove cap db event_id admin_id target_user_id hwf
  case setCap event_id new_max =>
    exact wf_setCapacity db event_id new_max hwf

theorem wf_initial : wf { events := [], votes := [] } := by
  refine ⟨?_, ?_, ?_, ?_⟩
  · intro e he
    exact absurd he (List.not_mem_nil e)
  · exact List.nodup_nil
  · intro v hv
    exact absurd hv (List.not_mem_nil v)
  · exact List.nodup_nil

theorem reachable_wf {db : DB} (h : Reachable db) : wf db := by
  induction h with
  | refl => exact wf_initial
  | tail hsteps hstep ih => exact wf_step hstep ih

/-! ### Further facts needed by the claims -/

theorem on_vote_state_of_ne_ok (db : DB) (event_id : Nat) (uid : Int) (un : String)
    (value : VoteValue) (h : (on_vote db event_id uid un value).1 ≠ .ok) :
    (on_vote db event_id uid un value).2 = db := by
  rcases hev : fetchEvent db event_id with _ | ev
  · rw [on_vote_not_found db event_id uid un value hev]
  · rcases hact : ev.active with _ | _
    · rw [on_vote_closed db event_id uid un value ev hev hact]
    · cases value with
      | out =>
        rcases hw : fetchVote db event_id uid with _ | w
        · rw [on_vote_out_none db event_id uid un ev hev hact hw]
        · exact absurd (by rw [on_vote_out_some db event_id uid un ev w hev hact hw]) h
      | guests g =>
        by_cases hcap : (currentTotal db event_id : Int) - oldSize db event_id uid
            + (1 + (g : Int)) > ev.max_people
        · rw [on_vote_capacity db event_id uid un g ev hev hact hcap]
        · rcases hw : fetchVote db event_id uid with _ | w
          · exact absurd
              (by rw [on_vote_write_none db event_id uid un g ev hev hact hcap hw]) h
          · by_cases hg : w.guests = g
            · rw [on_vote_noChange db event_id uid un g ev w hev hact hcap hw hg]
            · exact absurd
                (by rw [on_vote_write_some db event_id uid un g ev w hev hact hcap hw hg]) h

theorem fetchEvent_upsert (db : DB) (event_id : Nat) (uid : Int) (un : String)
    (g : Nat) (x : Nat) :
    fetchEvent (upsertVote db event_id uid un g) x = fetchEvent db x := by
  unfold fetchEvent
  rw [events_upsertVote]

theorem currentTotal_upsert_of_none (db : DB) (event_id : Nat) (uid : Int) (un : String)
    (g : Nat) (hw : fetchVote db event_id uid = none) :
    currentTotal (upsertVote db event_id uid un g) event_id
      = currentTotal db event_id + (1 + g) := by
  unfold currentTotal
  rw [votes_upsert_of_none db event_id uid un g hw, votesTotal_append, votesTotal_singleton]
  have hproj : (Vote.mk event_id uid un g).event_id = event_id := rfl
  have hgproj : (Vote.mk event_id uid un g).guests = g := rfl
  rw [hproj, hgproj, if_pos rfl]

theorem currentTotal_upsert_of_some (db : DB) (event_id : Nat) (uid : Int) (un : String)
    (g : Nat) (w : Vote) (hnd : votesNodup db)
    (hw : fetchVote db event_id uid = some w) :
    currentTotal (upsertVote db event_id uid un g) event_id + (1 + w.guests)
      = currentTotal db event_id + (1 + g) := by
  unfold currentTotal
  rw [votes_upsert_of_some db event_id uid un g w hw]
  exact votesTotal_map_updGuests event_id uid g db.votes w hnd hw

theorem votesNodup_upsert (db : DB) (event_id : Nat) (uid : Int) (un : String)
    (g : Nat) (hnd : votesNodup db) :
    votesNodup (upsertVote db event_id uid un g) := by
  unfold votesNodup
  rcases hw : fetchVote db event_id uid with _ | w
  · rw [votes_upsert_of_none db event_id uid un g hw]
    refine nodup_append_vote db.votes _ hnd ?_
    intro v hvm hkey
    unfold fetchVote at hw
    rw [List.find?_eq_none] at hw
    apply hw v hvm
    rw [keyMatch_eq_voteKey]
    exact hkey
  · rw [votes_upsert_of_some db event_id uid un g w hw]
    exact nodup_map_updGuests event_id uid g db.votes hnd

theorem fetchEvent_closeEvent_self (db : DB) (event_id : Nat) (ev : Event)
    (hev : fetchEvent db event_id = some ev) :
    fetchEvent (closeEvent db event_id) event_id = some { ev with active := false } := by
  obtain ⟨hevmem, hevid⟩ := fetchEvent_mem db event_id ev hev
  unfold fetchEvent closeEvent
  rw [fetchEvent_map _ (fun e => by split <;> rfl) db.events event_id]
  unfold fetchEvent at hev
  rw [hev]
  simp only [Option.map_some']
  rw [if_pos (beq_iff_eq.mpr hevid)]

theorem fetchVote_closeEvent (db : DB) (event_id : Nat) (x : Nat) (uid : Int) :
    fetchVote (closeEvent db event_id) x uid = fetchVote db x uid := rfl

theorem currentTotal_closeEvent (db : DB) (event_id : Nat) (x : Nat) :
    currentTotal (closeEvent db event_id) x = currentTotal db x := rfl

theorem adminSetVote_guests_authorized (cap : Int → Int → Bool) (db : DB)
    (event_id : Nat) (admin_id target_id : Int) (g : Nat) (ev : Event)
    (hev : fetchEvent db event_id = some ev)
    (hadm : is_event_admin cap ev admin_id = true) :
    adminSetVote cap db event_id admin_id target_id (.guests g)
      = (.ok, updateVoteGuests db event_id target_id g) := by
  unfold adminSetVote
  rw [hev]
  simp [hadm]

theorem adminSetVote_out_authorized (cap : Int → Int → Bool) (db : DB)
    (event_id : Nat) (admin_id target_id : Int) (ev : Event)
    (hev : fetchEvent db event_id = some ev)
    (hadm : is_event_admin cap ev admin_id = true) :
    adminSetVote cap db event_id admin_id target_id .out
      = (.ok, deleteVote db event_id target_id) := by
  unfold adminSetVote
  rw [hev]
  simp [hadm]

theorem adminSetVote_results (cap : Int → Int → Bool) (db : DB) (event_id : Nat)
    (admin_id target_id : Int) (value : VoteValue) :
    (adminSetVote cap db event_id admin_id target_id value).1 = .ok ∨
    (adminSetVote cap db event_id admin_id target_id value).1 = .eventNotFound ∨
    (adminSetVote cap db event_id admin_id target_id value).1 = .notAuthorized := by
  unfold adminSetVote
  rcases fetchEvent db event_id with _ | ev
  · simp
  · rcases h : is_event_admin cap ev admin_id with _ | _
    · simp [h]
    · rcases value with _ | g <;> simp [h]

theorem fetchVote_updateVoteGuests_of_some (db : DB) (event_id : Nat) (uid : Int)
    (g : Nat) (w : Vote) (hw : fetchVote db event_id uid = some w) :
    fetchVote (updateVoteGuests db event_id uid g) event_id uid
      = some { w with guests := g } := by
  unfold fetchVote updateVoteGuests
  show (db.votes.map (updGuests event_id uid g)).find? (keyMatch event_id uid) = _
  rw [List.find?_map]
  have hcomp : keyMatch event_id uid ∘ updGuests event_id uid g = keyMatch event_id uid :=
    funext (keyMatch_updGuests event_id uid event_id uid g)
  rw [hcomp]
  unfold fetchVote at hw
  rw [hw]
  simp [updGuests_of_match _ _ _ _ (List.find?_some hw)]

theorem updateVoteGuests_of_absent (db : DB) (event_id : Nat) (uid : Int) (g : Nat)
    (hw : fetchVote db event_id uid = none) :
    updateVoteGuests db event_id uid g = db := by
  unfold fetchVote at hw
  rw [List.find?_eq_none] at hw
  have h1 : db.votes.map (updGuests event_id uid g) = db.votes :=
    map_updGuests_id _ _ _ _ (fun v hv => by simpa using hw v hv)
  unfold updateVoteGuests
  rw [h1]

theorem setCapacity_invalid (db : DB) (event_id : Nat) (new_max : Int)
    (h : new_max < 1) :
    setCapacity db event_id new_max = (.invalidInput, db) := by
  unfold setCapacity
  rw [if_pos h]

theorem setCapacity_below (db : DB) (event_id : Nat) (new_max : Int)
    (h1 : ¬ new_max < 1) (h2 : new_max < (currentTotal db event_id : Int)) :
    setCapacity db event_id new_max = (.capacityBelowCurrent, db) := by
  unfold setCapacity
  rw [if_neg h1, if_pos h2]

theorem setCapacity_ok_state (db : DB) (event_id : Nat) (new_max : Int)
    (h1 : ¬ new_max < 1) (h2 : ¬ new_max < (currentTotal db event_id : Int)) :
    (setCapacity db event_id new_max).1 = .ok ∧
    (setCapacity db event_id new_max).2.events = db.events.map (fun e =>
      if e.id == event_id then { e with max_people := new_max } else e) ∧
    (setCapacity db event_id new_max).2.votes = db.votes := by
  unfold setCapacity
  rw [if_neg h1, if_neg h2]
  exact ⟨rfl, rfl, rfl⟩

/-! ### Concrete states for the witnesses -/

/-- The event of the boundary example of the specification:
"Soccer", capacity 3, created by actor 7 in chat -100. -/
def sampleEvent : Event := Event.mk 1 (-100) "Soccer" 3 7 true

/-- One event, no votes. -/
def dbNoVotes : DB := { events := [sampleEvent], votes := [] }

/-- One event, one vote of size 1 (participant 10, no guests). -/
def dbOneVote : DB := { events := [sampleEvent], votes := [Vote.mk 1 10 "A" 0] }

/-- One event of capacity 1 holding a vote of size 3: occupancy exceeds
capacity, the shape only an admin override can produce. -/
def dbOverfull : DB :=
  { events := [Event.mk 1 (-100) "Soccer" 1 7 true], votes := [Vote.mk 1 10 "A" 2] }

/-! ### The claims -/

/-- Claim C1: every state reachable from the empty store through the
non-admin mutating operations (createEvent, castVote, removeParticipant,
setCapacity) satisfies the capacity invariant
`sum(1 + guest_count) ≤ max_capacity` for every event, and the two
mutations that could raise an event's occupancy — the numeric vote and the
capacity change — leave the state completely unchanged when they reject on
the capacity bound. -/
theorem C1_capacity_invariant :
    (∀ db : DB, Reachable db → capInvariant db) ∧
    (∀ (db : DB) (event_id : Nat) (uid : Int) (un : String) (g : Nat),
      (on_vote db event_id uid un (.guests g)).1 = .capacityExceeded →
      (on_vote db event_id uid un (.guests g)).2 = db) ∧
    (∀ (db : DB) (event_id : Nat) (new_max : Int),
      (setCapacity db event_id new_max).1 = .capacityBelowCurrent →
      (setCapacity db event_id new_max).2 = db) := by
  refine ⟨fun db h => (reachable_wf h).1, ?_, ?_⟩
  · intro db event_id uid un g hres
    apply on_vote_state_of_ne_ok
    rw [hres]
    decide
  · intro db event_id new_max hres
    by_cases h1 : new_max < 1
    · rw [setCapacity_invalid db event_id new_max h1]
    · by_cases h2 : new_max < (currentTotal db event_id : Int)
      · rw [setCapacity_below db event_id new_max h1 h2]
      · rw [(setCapacity_ok_state db event_id new_max h1 h2).1] at hres
        simp at hres

/-- Witness for C1: the state after creating the "Soccer" event with
capacity 3 is reachable and satisfies the capacity invariant. -/
theorem C1_capacity_invariant_witness :
    capInvariant (createEvent { events := [], votes := [] } 1 (-100) "Soccer" 3 7).2 :=
  C1_capacity_invariant.1 _
    (Relation.ReflTransGen.tail Relation.ReflTransGen.refl
      (Step.create { events := [], votes := [] } 1 (-100) "Soccer" 3 7
        (fun e he => absurd he (List.not_mem_nil e))))

/-- Claim C2: on an existing, active event, a numeric castVote reports
CapacityExceeded exactly when `currentTotal - oldSize + newSize` exceeds
the capacity, and a rejected call changes nothing. -/
theorem C2_castVote_capacity_iff (db : DB) (event_id : Nat) (uid : Int) (un : String)
    (g : Nat) (ev : Event)
    (hev : fetchEvent db event_id = some ev) (hact : ev.active = true) :
    ((on_vote db event_id uid un (.guests g)).1 = .capacityExceeded ↔
      (currentTotal db event_id : Int) - oldSize db event_id uid + (1 + (g : Int))
        > ev.max_people) ∧
    ((on_vote db event_id uid un (.guests g)).1 = .capacityExceeded →
      (on_vote db event_id uid un (.guests g)).2 = db) := by
  constructor
  · constructor
    · intro hres
      by_contra hcap
      rcases hw : fetchVote db event_id uid with _ | w
      · rw [on_vote_write_none db event_id uid un g ev hev hact hcap hw] at hres
        simp at hres
      · by_cases hg : w.guests = g
        · rw [on_vote_noChange db event_id uid un g ev w hev hact hcap hw hg] at hres
          simp at hres
        · rw [on_vote_write_some db event_id uid un g ev w hev hact hcap hw hg] at hres
          simp at hres
    · intro hcap
      rw [on_vote_capacity db event_id uid un g ev hev hact hcap]
  · intro hres
    apply on_vote_state_of_ne_ok
    rw [hres]
    decide

/-- Witness for C2: on the "Soccer" event (capacity 3, occupancy 1),
participant 11 asking for 2 guests (size 3, total 4) is rejected with
CapacityExceeded and the state is untouched. -/
theorem C2_castVote_capacity_iff_witness :
    (on_vote dbOneVote 1 11 "B" (.guests 2)).1 = .capacityExceeded ∧
    (on_vote dbOneVote 1 11 "B" (.guests 2)).2 = dbOneVote := by
  have h := C2_castVote_capacity_iff dbOneVote 1 11 "B" 2 sampleEvent rfl rfl
  have h1 : (on_vote dbOneVote 1 11 "B" (.guests 2)).1 = .capacityExceeded :=
    h.1.mpr (by decide)
  exact ⟨h1, h.2 h1⟩

/-- Claim C3: when a numeric castVote succeeds (or already reports
NoChange), repeating it with the same guest count yields NoChange, writes
nothing, and the participant holds exactly one vote row. -/
theorem C3_castVote_idempotent (db : DB) (event_id : Nat) (uid : Int)
    (un1 un2 : String) (g : Nat)
    (hnd : votesNodup db)
    (h1 : (on_vote db event_id uid un1 (.guests g)).1 = .ok ∨
          (on_vote db event_id uid un1 (.guests g)).1 = .noChange) :
    on_vote (on_vote db event_id uid un1 (.guests g)).2 event_id uid un2 (.guests g)
      = (.noChange, (on_vote db event_id uid un1 (.guests g)).2) ∧
    (((on_vote db event_id uid un1 (.guests g)).2).votes.filter
      (keyMatch event_id uid)).length = 1 := by
  rcases hev : fetchEvent db event_id with _ | ev
  · rw [on_vote_not_found db event_id uid un1 (.guests g) hev] at h1
    simp at h1
  · rcases hact : ev.active with _ | _
    · rw [on_vote_closed db event_id uid un1 (.guests g) ev hev hact] at h1
      simp at h1
    · by_cases hcap : (currentTotal db event_id : Int) - oldSize db event_id uid
          + (1 + (g : Int)) > ev.max_people
      · rw [on_vote_capacity db event_id uid un1 g ev hev hact hcap] at h1
        simp at h1
      · rcases hw : fetchVote db event_id uid with _ | w
        · have heq1 := on_vote_write_none db event_id uid un1 g ev hev hact hcap hw
          rw [heq1]
          have hw2 := fetchVote_upsert_of_none db event_id uid un1 g hw
          have hev2 : fetchEvent (upsertVote db event_id uid un1 g) event_id = some ev :=
            (fetchEvent_upsert db event_id uid un1 g event_id).trans hev
          have htot := currentTotal_upsert_of_none db event_id uid un1 g hw
          rw [oldSize_of_none db event_id uid hw] at hcap
          have hcap2 : ¬ ((currentTotal (upsertVote db event_id uid un1 g) event_id : Int)
              - oldSize (upsertVote db event_id uid un1 g) event_id uid + (1 + (g : Int))
              > ev.max_people) := by
            rw [oldSize_of_some _ _ _ _ hw2, htot]
            have hgp : (Vote.mk event_id uid un1 g).guests = g := rfl
            rw [hgp]
            omega
          refine ⟨?_, ?_⟩
          · exact on_vote_noChange _ event_id uid un2 g ev _ hev2 hact hcap2 hw2 rfl
          · exact filter_keyMatch_length event_id uid _ _
              (votesNodup_upsert db event_id uid un1 g hnd) hw2
        · by_cases hg : w.guests = g
          · rw [on_vote_noChange db event_id uid un1 g ev w hev hact hcap hw hg]
            refine ⟨?_, ?_⟩
            · exact on_vote_noChange db event_id uid un2 g ev w hev hact hcap hw hg
            · exact filter_keyMatch_length event_id uid db.votes w hnd hw
          · have heq1 := on_vote_write_some db event_id uid un1 g ev w hev hact hcap hw hg
            rw [heq1]
            have hw2 := fetchVote_upsert_of_some db event_id uid un1 g w hw
            have hev2 : fetchEvent (upsertVote db event_id uid un1 g) event_id = some ev :=
              (fetchEvent_upsert db event_id uid un1 g event_id).trans hev
            have htot := currentTotal_upsert_of_some db event_id uid un1 g w hnd hw
            rw [oldSize_of_some db event_id uid w hw] at hcap
            have hcap2 : ¬ ((currentTotal (upsertVote db event_id uid un1 g) event_id : Int)
                - oldSize (upsertVote db event_id uid un1 g) event_id uid + (1 + (g : Int))
                > ev.max_people) := by
              rw [oldSize_of_some _ _ _ _ hw2]
              have hgp : ({ w with guests := g } : Vote).guests = g := rfl
              rw [hgp]
              omega
            refine ⟨?_, ?_⟩
            · exact on_vote_noChange _ event_id uid un2 g ev _ hev2 hact hcap2 hw2 rfl
            · exact filter_keyMatch_length event_id uid _ _
                (votesNodup_upsert db event_id uid un1 g hnd) hw2

/-- Witness for C3: participant 10 casting 2 guests on the fresh "Soccer"
event succeeds; repeating the identical vote yields NoChange, no write,
and a single vote row. -/
theorem C3_castVote_idempotent_witness :
    on_vote (on_vote dbNoVotes 1 10 "A" (.guests 2)).2 1 10 "A" (.guests 2)
      = (.noChange, (on_vote dbNoVotes 1 10 "A" (.guests 2)).2) ∧
    (((on_vote dbNoVotes 1 10 "A" (.guests 2)).2).votes.filter (keyMatch 1 10)).length = 1 :=
  C3_castVote_idempotent dbNoVotes 1 10 "A" "A" 2 (by unfold votesNodup; decide)
    (Or.inl (by decide))

/-- Claim C4: after closing an event, every castVote on it fails with
EventClosed and changes nothing, while a numeric adminSetVote by an
authorized admin still succeeds and rewrites the target's vote row. -/
theorem C4_closed_event (db : DB) (event_id : Nat) (uid : Int) (un : String)
    (value : VoteValue) (cap : Int → Int → Bool) (admin_id target_id : Int) (g : Nat)
    (ev : Event) (w : Vote)
    (hev : fetchEvent db event_id = some ev)
    (hadm : is_event_admin cap { ev with active := false } admin_id = true)
    (hw : fetchVote db event_id target_id = some w) :
    on_vote (closeEvent db event_id) event_id uid un value
      = (.eventClosed, closeEvent db event_id) ∧
    (adminSetVote cap (closeEvent db event_id) event_id admin_id target_id
      (.guests g)).1 = .ok ∧
    fetchVote (adminSetVote cap (closeEvent db event_id) event_id admin_id target_id
      (.guests g)).2 event_id target_id = some { w with guests := g } := by
  have hev2 := fetchEvent_closeEvent_self db event_id ev hev
  have hw2 : fetchVote (closeEvent db event_id) event_id target_id = some w :=
    (fetchVote_closeEvent db event_id event_id target_id).trans hw
  have hact2 : ({ ev with active := false } : Event).active = false := rfl
  have hadmin := adminSetVote_guests_authorized cap (closeEvent db event_id) event_id
    admin_id target_id g _ hev2 hadm
  refine ⟨?_, ?_, ?_⟩
  · exact on_vote_closed _ event_id uid un value _ hev2 hact2
  · rw [hadmin]
  · rw [hadmin]
    exact fetchVote_updateVoteGuests_of_some _ event_id target_id g w hw2

/-- Witness for C4: close the "Soccer" event holding participant 10's
vote; their castVote fails EventClosed while the creator's admin edit to 4
guests still lands. -/
theorem C4_closed_event_witness :
    on_vote (closeEvent dbOneVote 1) 1 10 "A" (.guests 2)
      = (.eventClosed, closeEvent dbOneVote 1) ∧
    (adminSetVote (fun _ _ => false) (closeEvent dbOneVote 1) 1 7 10 (.guests 4)).1
      = .ok ∧
    fetchVote (adminSetVote (fun _ _ => false) (closeEvent dbOneVote 1) 1 7 10
      (.guests 4)).2 1 10 = some { Vote.mk 1 10 "A" 0 with guests := 4 } :=
  C4_closed_event dbOneVote 1 10 "A" (.guests 2) (fun _ _ => false) 7 10 4
    sampleEvent (Vote.mk 1 10 "A" 0) rfl rfl rfl

/-- Claim C5: adminSetVote never reports CapacityExceeded, and an
authorized admin's numeric edit of an existing vote is applied with no
capacity check at all. -/
theorem C5_admin_capacity_override (db : DB) (event_id : Nat)
    (admin_id target_id : Int) (g : Nat) (cap : Int → Int → Bool)
    (ev : Event) (w : Vote)
    (hev : fetchEvent db event_id = some ev)
    (hadm : is_event_admin cap ev admin_id = true)
    (hw : fetchVote db event_id target_id = some w) :
    (∀ (db2 : DB) (eid2 : Nat) (aid2 tid2 : Int) (value : VoteValue)
      (cap2 : Int → Int → Bool),
      (adminSetVote cap2 db2 eid2 aid2 tid2 value).1 ≠ .capacityExceeded) ∧
    (adminSetVote cap db event_id admin_id target_id (.guests g)).1 = .ok ∧
    fetchVote (adminSetVote cap db event_id admin_id target_id (.guests g)).2
      event_id target_id = some { w with guests := g } := by
  have hadmin := adminSetVote_guests_authorized cap db event_id admin_id target_id g
    ev hev hadm
  refine ⟨?_, ?_, ?_⟩
  · intro db2 eid2 aid2 tid2 value cap2 hcon
    rcases adminSetVote_results cap2 db2 eid2 aid2 tid2 value with h | h | h <;>
      rw [hcon] at h <;> exact absurd h (by decide)
  · rw [hadmin]
  · rw [hadmin]
    exact fetchVote_updateVoteGuests_of_some db event_id target_id g w hw

/-- Witness for C5: the creator raises participant 10's vote to 4 guests
on the full "Soccer" event, pushing occupancy to 5 over capacity 3, and
the edit is applied. -/
theorem C5_admin_capacity_override_witness :
    (∀ (db2 : DB) (eid2 : Nat) (aid2 tid2 : Int) (value : VoteValue)
      (cap2 : Int → Int → Bool),
      (adminSetVote cap2 db2 eid2 aid2 tid2 value).1 ≠ .capacityExceeded) ∧
    (adminSetVote (fun _ _ => false) dbOneVote 1 7 10 (.guests 4)).1 = .ok ∧
    fetchVote (adminSetVote (fun _ _ => false) dbOneVote 1 7 10 (.guests 4)).2 1 10
      = some { Vote.mk 1 10 "A" 0 with guests := 4 } :=
  C5_admin_capacity_override dbOneVote 1 7 10 4 (fun _ _ => false) sampleEvent
    (Vote.mk 1 10 "A" 0) rfl rfl rfl

/-- Claim C6: on an active event, a participant with a vote who sends
"leave" has the vote deleted (total drops by 1 + guest_count), and a second
"leave" fails with NotParticipating and changes nothing. -/
theorem C6_leave_semantics (db : DB) (event_id : Nat) (uid : Int) (un : String)
    (ev : Event) (w : Vote)
    (hnd : votesNodup db)
    (hev : fetchEvent db event_id = some ev) (hact : ev.active = true)
    (hw : fetchVote db event_id uid = some w) :
    on_vote db event_id uid un .out = (.ok, deleteVote db event_id uid) ∧
    currentTotal (deleteVote db event_id uid) event_id + (1 + w.guests)
      = currentTotal db event_id ∧
    on_vote (deleteVote db event_id uid) event_id uid un .out
      = (.notParticipating, deleteVote db event_id uid) := by
  refine ⟨on_vote_out_some db event_id uid un ev w hev hact hw, ?_, ?_⟩
  · exact votesTotal_erase event_id uid db.votes w hnd hw
  · refine on_vote_out_none _ event_id uid un ev ?_ hact ?_
    · exact hev
    · exact fetchVote_deleteVote db event_id uid

/-- Witness for C6: participant 10 leaves the "Soccer" event (total drops
from 1 to 0) and a repeat leave reports NotParticipating. -/
theorem C6_leave_semantics_witness :
    on_vote dbOneVote 1 10 "A" .out = (.ok, deleteVote dbOneVote 1 10) ∧
    currentTotal (deleteVote dbOneVote 1 10) 1 + (1 + (Vote.mk 1 10 "A" 0).guests)
      = currentTotal dbOneVote 1 ∧
    on_vote (deleteVote dbOneVote 1 10) 1 10 "A" .out
      = (.notParticipating, deleteVote dbOneVote 1 10) :=
  C6_leave_semantics dbOneVote 1 10 "A" sampleEvent (Vote.mk 1 10 "A" 0)
    (by unfold votesNodup; decide) rfl rfl rfl

/-- Claim C7: setCapacity fails InvalidInput exactly when the new value is
below 1, fails CapacityBelowCurrent exactly when it is at least 1 but
below the current occupancy, leaves the capacity untouched on failure, and
stores only a value at least max(1, currentTotal). -/
theorem C7_setCapacity_guards (db : DB) (event_id : Nat) (new_max : Int) :
    ((setCapacity db event_id new_max).1 = .invalidInput ↔ new_max < 1) ∧
    ((setCapacity db event_id new_max).1 = .capacityBelowCurrent ↔
      (1 ≤ new_max ∧ new_max < (currentTotal db event_id : Int))) ∧
    ((setCapacity db event_id new_max).1 ≠ .ok →
      (setCapacity db event_id new_max).2 = db) ∧
    ((setCapacity db event_id new_max).1 = .ok →
      (1 ≤ new_max ∧ (currentTotal db event_id : Int) ≤ new_max ∧
        ∀ e ∈ (setCapacity db event_id new_max).2.events, e.id = event_id →
          e.max_people = new_max)) := by
  by_cases h1 : new_max < 1
  · rw [setCapacity_invalid db event_id new_max h1]
    refine ⟨by simp [h1], by simp <;> omega, fun _ => rfl, by simp⟩
  · by_cases h2 : new_max < (currentTotal db event_id : Int)
    · rw [setCapacity_below db event_id new_max h1 h2]
      refine ⟨by simp <;> omega, by simp <;> omega, fun _ => rfl, by simp⟩
    · obtain ⟨hr, hevs, hvt⟩ := setCapacity_ok_state db event_id new_max h1 h2
      rw [hr]
      refine ⟨by simp <;> omega, by simp <;> omega, fun hne => absurd rfl hne, ?_⟩
      intro _
      refine ⟨by omega, by omega, ?_⟩
      intro e he hid
      rw [hevs, List.mem_map] at he
      obtain ⟨e0, he0, rfl⟩ := he
      by_cases h3 : e0.id = event_id
      · rw [if_pos (beq_iff_eq.mpr h3)]
      · rw [if_neg (by simpa using h3)] at hid ⊢
        exact absurd hid h3

/-- Witness for C7: on the "Soccer" event with occupancy 1, capacity 0 is
InvalidInput, capacity 5 is accepted and stored. -/
theorem C7_setCapacity_guards_witness :
    ((setCapacity dbOneVote 1 0).1 = .invalidInput ↔ (0 : Int) < 1) ∧
    ((setCapacity dbOneVote 1 0).1 = .capacityBelowCurrent ↔
      ((1 : Int) ≤ 0 ∧ (0 : Int) < (currentTotal dbOneVote 1 : Int))) ∧
    ((setCapacity dbOneVote 1 0).1 ≠ .ok → (setCapacity dbOneVote 1 0).2 = dbOneVote) ∧
    ((setCapacity dbOneVote 1 0).1 = .ok →
      ((1 : Int) ≤ 0 ∧ (currentTotal dbOneVote 1 : Int) ≤ 0 ∧
        ∀ e ∈ (setCapacity dbOneVote 1 0).2.events, e.id = 1 →
          e.max_people = 0)) :=
  C7_setCapacity_guards dbOneVote 1 0

/-- Claim C8: is_event_admin holds exactly for the event's creator or an
actor the injected platform capability reports as privileged in the
event's conversation. -/
theorem C8_is_event_admin_iff (cap : Int → Int → Bool) (ev : Event) (uid : Int) :
    is_event_admin cap ev uid = true ↔
      (uid = ev.created_by ∨ cap ev.chat_id uid = true) := by
  unfold is_event_admin
  by_cases h : uid = ev.created_by
  · rw [if_pos (beq_iff_eq.mpr h)]
    simp [h]
  · rw [if_neg (by simpa using h)]
    simp [h]

/-- Witness for C8 at the "Soccer" event's creator with a capability that
grants nobody. -/
theorem C8_is_event_admin_iff_witness :
    is_event_admin (fun _ _ => false) sampleEvent 7 = true ↔
      ((7 : Int) = sampleEvent.created_by ∨
        (fun (_ _ : Int) => false) sampleEvent.chat_id 7 = true) :=
  C8_is_event_admin_iff (fun _ _ => false) sampleEvent 7

/-- Claim C9: a numeric adminSetVote whose target holds no vote row leaves
the state unchanged (the UPDATE matches zero rows) yet reports success —
an admin cannot create a fresh vote this way. -/
theorem C9_admin_update_absent_target (db : DB) (event_id : Nat)
    (admin_id target_id : Int) (g : Nat) (cap : Int → Int → Bool) (ev : Event)
    (hev : fetchEvent db event_id = some ev)
    (hadm : is_event_admin cap ev admin_id = true)
    (hw : fetchVote db event_id target_id = none) :
    adminSetVote cap db event_id admin_id target_id (.guests g) = (.ok, db) := by
  rw [adminSetVote_guests_authorized cap db event_id admin_id target_id g ev hev hadm,
    updateVoteGuests_of_absent db event_id target_id g hw]

/-- Witness for C9: the creator edits absent participant 99 on the fresh
"Soccer" event; nothing changes and the result is success. -/
theorem C9_admin_update_absent_target_witness :
    adminSetVote (fun _ _ => false) dbNoVotes 1 7 99 (.guests 2) = (.ok, dbNoVotes) :=
  C9_admin_update_absent_target dbNoVotes 1 7 99 2 (fun _ _ => false) sampleEvent
    rfl rfl rfl

/-- Claim C10: the capacity check runs before the no-change guard, so in a
state whose occupancy already exceeds capacity, re-casting the identical
guest count is answered with CapacityExceeded, not NoChange. -/
theorem C10_capacity_check_precedes_noChange (db : DB) (event_id : Nat) (uid : Int)
    (un : String) (g : Nat) (ev : Event) (w : Vote)
    (hev : fetchEvent db event_id = some ev) (hact : ev.active = true)
    (hover : (currentTotal db event_id : Int) > ev.max_people)
    (hw : fetchVote db event_id uid = some w) (hg : w.guests = g) :
    on_vote db event_id uid un (.guests g) = (.capacityExceeded, db) := by
  apply on_vote_capacity db event_id uid un g ev hev hact
  rw [oldSize_of_some db event_id uid w hw, hg]
  omega

/-- Witness for C10: in the overfull state (occupancy 3, capacity 1),
participant 10 re-casting their identical 2-guest vote is rejected with
CapacityExceeded. -/
theorem C10_capacity_check_precedes_noChange_witness :
    on_vote dbOverfull 1 10 "A" (.guests 2) = (.capacityExceeded, dbOverfull) :=
  C10_capacity_check_precedes_noChange dbOverfull 1 10 "A" 2
    (Event.mk 1 (-100) "Soccer" 1 7 true) (Vote.mk 1 10 "A" 2) rfl rfl
    (by decide) rfl rfl

end EventPlanner
